import Mathlib

/-!
Verification of the pyseldon Deffuant model wrapper (src/pyseldon/DeffuantModel.py)
and, where the native seldoncore engine is referenced but absent from the
Python sources, a model of the engine built from the specification.

Opinions are Python floats; they are embedded as rationals (exact real
arithmetic), so "within floating-point tolerance" statements become exact
equalities in the model.
-/

namespace PySeldon

/-- Error taxonomy of the specification (§7).  `IndexOutOfRange` embeds the
Python `IndexError("Agent index is out of range.")`; `OutputTargetConflict`
embeds the `Exception("Output Directory already Exists!! ...")` raised by
`Deffuant_Model.run`; `ConfigError` embeds a failure of
`seldoncore.validate_settings`. -/
inductive SimError where
  | IndexOutOfRange : SimError
  | OutputTargetConflict : SimError
  | ConfigError : SimError
deriving DecidableEq, Repr

/-- The Agent Store: the dense, index-addressable container of agent opinions,
`[agent.data.opinion for agent in self._simulation.network.agent]`. -/
abbrev AgentStore := List ℚ

/-- Embeds `Deffuant_Model.agent_opinion` (DeffuantModel.py lines 157-172).
`index = none` embeds the Python default `index=None`: the whole opinion list
is returned with no bounds check.  Otherwise the Python code raises
`IndexError` when `index < 0 or index >= self.Network.n_agents()`, and else
returns `self._simulation.network.agent[index].data.opinion`. -/
def agent_opinion (store : AgentStore) (index : Option ℤ) :
    Except SimError (ℚ ⊕ List ℚ) :=
  match index with
  | none => Except.ok (Sum.inr store)
  | some i =>
      if i < 0 ∨ (store.length : ℤ) ≤ i then Except.error SimError.IndexOutOfRange
      else Except.ok (Sum.inl (store.getD i.toNat 0))

/-- Embeds `Deffuant_Model.set_agent_opinion` (DeffuantModel.py lines 174-188):
the same bound check as `agent_opinion`, then the agent's opinion field is
overwritten in place. -/
def set_agent_opinion (store : AgentStore) (index : ℤ) (opinion : ℚ) :
    Except SimError AgentStore :=
  if index < 0 ∨ (store.length : ℤ) ≤ index then Except.error SimError.IndexOutOfRange
  else Except.ok (store.set index.toNat opinion)

/-- Environment facts observed by `Deffuant_Model.run`: whether
`seldoncore.validate_settings(self._options)` succeeds and whether the
resolved `output_path` already exists on disk. -/
structure RunEnv where
  settingsValid : Bool
  dirExists : Bool

/-- Observable outcome of `Deffuant_Model.run`: the exception raised (if any),
the Agent Store afterwards, and how many engine iterations were performed. -/
structure RunOutcome where
  err : Option SimError
  finalStore : AgentStore
  iterationsRun : ℕ

/-- Embeds `Deffuant_Model.run` (DeffuantModel.py lines 118-138):
`validate_settings` is called first; then the output path is checked and an
exception is raised if it already exists, before `self._simulation.run` is
invoked.  The native engine call is abstracted as `sim`, returning the final
store and the number of iterations it performed. -/
def runModel (env : RunEnv) (store : AgentStore) (sim : AgentStore → AgentStore × ℕ) :
    RunOutcome :=
  if env.settingsValid = false then
    { err := some SimError.ConfigError, finalStore := store, iterationsRun := 0 }
  else if env.dirExists = true then
    { err := some SimError.OutputTargetConflict, finalStore := store, iterationsRun := 0 }
  else
    { err := none, finalStore := (sim store).1, iterationsRun := (sim store).2 }

/-- Modelled from the spec: the Deffuant Update Rule (§4.4) lives in the native
seldoncore engine, which is not part of the Python sources.  "Let
`d = |opinion_i - opinion_j|`.  If `d >= homophily_threshold`: no change.
Else: `new_opinion_i = opinion_i + mu * (opinion_j - opinion_i)`;
`new_opinion_j = opinion_j + mu * (opinion_i - opinion_j)`, computed from the
original (pre-update) pair." -/
def deffuantUpdate (a b t mu : ℚ) : ℚ × ℚ :=
  if |a - b| ≥ t then (a, b)
  else (a + mu * (b - a), b + mu * (a - b))

/-- Modelled from the spec: the seeded random number generator of the native
engine (§3: `rng_seed` determines the random stream).  The spec fixes no
algorithm, only that the stream is a deterministic function of the seed; a
linear congruential step stands in for it. -/
def rngNext (s : ℕ) : ℕ := (s * 1103515245 + 12345) % 2 ^ 31

/-- Modelled from the spec: the Random Interaction Selector (§4.3), network
disabled mode, which lives in the native engine.  "Draw `i` uniformly from
`[0, n)`; draw `j` uniformly from `[0, n) \ set-of i`."  Returns the advanced
rng state and the ordered pair. -/
def selectPair (n : ℕ) (s : ℕ) : ℕ × ℕ × ℕ :=
  let s1 := rngNext s
  let i := s1 % n
  let s2 := rngNext s1
  let j0 := s2 % (n - 1)
  let j := if i ≤ j0 then j0 + 1 else j0
  (s2, i, j)

/-- Modelled from the spec: the state of one simulation run (§4.5): the Agent
Store, the rng state, the IterationCounter, and the sequence of interacting
pairs drawn so far (in order). -/
structure SimState where
  store : AgentStore
  rng : ℕ
  iter : ℕ
  trace : List (ℕ × ℕ)
deriving DecidableEq, Repr

/-- Modelled from the spec: one interaction step of the Simulation Loop
(§4.5 Running): select a pair (§4.3), apply the Update Rule (§4.4) to the
pre-update opinions, write both entries back, increment the
IterationCounter, record the pair. -/
def simStep (t mu : ℚ) (st : SimState) : SimState :=
  let p := selectPair st.store.length st.rng
  let i := p.2.1
  let j := p.2.2
  let a := st.store.getD i 0
  let b := st.store.getD j 0
  let u := deffuantUpdate a b t mu
  { store := (st.store.set i u.1).set j u.2
    rng := p.1
    iter := st.iter + 1
    trace := st.trace ++ [(i, j)] }

/-- Modelled from the spec: the bounded Simulation Loop (§4.5) with
`max_iterations` set, expressed as the number of remaining steps. -/
def simRun (t mu : ℚ) : ℕ → SimState → SimState
  | 0, st => st
  | k + 1, st => simRun t mu k (simStep t mu st)

/-- Modelled from the spec: the Initialized state of the loop (§4.5):
Agent Store constructed, `IterationCounter = 0`, no pairs drawn yet,
rng seeded from `rng_seed`. -/
def initState (seed : ℕ) (opinions : AgentStore) : SimState :=
  { store := opinions, rng := seed, iter := 0, trace := [] }

/-- Modelled from the spec: a complete bounded run of the simulation:
start Initialized with the given seed and initial opinions, perform exactly
`maxIter` interaction steps, reach Terminated. -/
def runSimulation (seed maxIter : ℕ) (t mu : ℚ) (opinions : AgentStore) : SimState :=
  simRun t mu maxIter (initState seed opinions)

/-- Helper: over `k` steps the loop adds `k` to the IterationCounter and
records `k` pairs. -/
theorem simRun_iter_trace (t mu : ℚ) (k : ℕ) (st : SimState) :
    (simRun t mu k st).iter = st.iter + k ∧
    (simRun t mu k st).trace.length = st.trace.length + k := by
  induction k generalizing st with
  | zero => exact ⟨rfl, rfl⟩
  | succ n ih =>
      obtain ⟨h1, h2⟩ := ih (simStep t mu st)
      refine ⟨?_, ?_⟩
      · have hstep : (simStep t mu st).iter = st.iter + 1 := rfl
        have : (simRun t mu (n + 1) st).iter = (simRun t mu n (simStep t mu st)).iter := rfl
        omega
      · have hstep : (simStep t mu st).trace.length = st.trace.length + 1 := by
          simp [simStep]
        have : (simRun t mu (n + 1) st).trace.length =
            (simRun t mu n (simStep t mu st)).trace.length := rfl
        omega

/-- C1: for an Agent Store of size `n`, `agent_opinion` fails with
`IndexOutOfRange` exactly when the index is outside `[0, n)`; in particular
index `-1` and index `n` both fail, and for every in-range index the agent's
opinion is returned. -/
theorem agent_opinion_bounds (store : AgentStore) (i : ℤ) :
    agent_opinion store (some (-1)) = Except.error SimError.IndexOutOfRange ∧
    agent_opinion store (some (store.length : ℤ)) = Except.error SimError.IndexOutOfRange ∧
    (agent_opinion store (some i) = Except.error SimError.IndexOutOfRange ↔
      i < 0 ∨ (store.length : ℤ) ≤ i) ∧
    (∀ (j : ℕ) (hj : j < store.length), (j : ℤ) = i →
      agent_opinion store (some i) = Except.ok (Sum.inl (store.get ⟨j, hj⟩))) := by
  refine ⟨?_, ?_, ?_, ?_⟩
  · simp [agent_opinion]
  · simp [agent_opinion]
  · by_cases h : i < 0 ∨ (store.length : ℤ) ≤ i
    · simp [agent_opinion, h]
    · simp [agent_opinion, h]
  · intro j hj hji
    subst hji
    have h : ¬((j : ℤ) < 0 ∨ (store.length : ℤ) ≤ (j : ℤ)) := by
      push_neg
      exact ⟨Int.natCast_nonneg j, by exact_mod_cast hj⟩
    simp only [agent_opinion, h, if_false, Int.toNat_natCast]
    rw [List.getD_eq_getElem store 0 hj]
    rfl

/-- Witness for C1 at a concrete store and index. -/
theorem agent_opinion_bounds_witness :
    agent_opinion [1, 2, 3] (some 1) = Except.ok (Sum.inl ([1, 2, 3].get ⟨1, by decide⟩)) :=
  (agent_opinion_bounds [1, 2, 3] 1).2.2.2 1 (by decide) rfl

/-- C2: `set_agent_opinion` fails with `IndexOutOfRange` outside `[0, n)`;
for an in-range index it overwrites exactly that agent's opinion, so a
subsequent `agent_opinion` read of that index returns the new value, and
every other agent's opinion is unchanged. -/
theorem set_agent_opinion_spec (store : AgentStore) (i : ℤ) (v : ℚ) :
    ((i < 0 ∨ (store.length : ℤ) ≤ i) →
      set_agent_opinion store i v = Except.error SimError.IndexOutOfRange) ∧
    (∀ (j : ℕ), j < store.length → (j : ℤ) = i →
      ∃ store2, set_agent_opinion store i v = Except.ok store2 ∧
        store2.length = store.length ∧
        agent_opinion store2 (some i) = Except.ok (Sum.inl v) ∧
        ∀ (k : ℕ), k ≠ j → store2.getD k 0 = store.getD k 0) := by
  constructor
  · intro h
    simp [set_agent_opinion, h]
  · intro j hj hji
    subst hji
    have h : ¬((j : ℤ) < 0 ∨ (store.length : ℤ) ≤ (j : ℤ)) := by
      push_neg
      exact ⟨Int.natCast_nonneg j, by exact_mod_cast hj⟩
    refine ⟨store.set j v, ?_, ?_, ?_, ?_⟩
    · simp only [set_agent_opinion, h, if_false, Int.toNat_natCast]
    · exact store.length_set j v
    · have hlen : (((store.set j v).length : ℤ)) = (store.length : ℤ) := by
        simp
      simp only [agent_opinion, hlen, h, if_false, Int.toNat_natCast]
      rw [List.getD_eq_getElem?_getD, List.getElem?_set_self]
      · simp [hj]
      · exact hj
    · intro k hk
      rw [List.getD_eq_getElem?_getD, List.getD_eq_getElem?_getD,
        List.getElem?_set_ne (fun he => hk he.symm)]

/-- Witness for C2 at a concrete store, index and value. -/
theorem set_agent_opinion_spec_witness :
    ∃ store2, set_agent_opinion [1, 2, 3] 1 7 = Except.ok store2 ∧
      store2.length = ([1, 2, 3] : AgentStore).length ∧
      agent_opinion store2 (some 1) = Except.ok (Sum.inl 7) ∧
      ∀ (k : ℕ), k ≠ 1 → store2.getD k 0 = ([1, 2, 3] : AgentStore).getD k 0 :=
  (set_agent_opinion_spec [1, 2, 3] 1 7).2 1 (by decide) rfl

/-- C10: calling `agent_opinion` with the index omitted returns the full list
of opinions in index order, with length equal to the agent count and each
entry equal to the corresponding agent's opinion, succeeding with no bounds
check for every store. -/
theorem agent_opinion_none_returns_all (store : AgentStore) :
    ∃ l, agent_opinion store none = Except.ok (Sum.inr l) ∧
      l.length = store.length ∧
      ∀ (j : ℕ), l.getD j 0 = store.getD j 0 :=
  ⟨store, rfl, rfl, fun _ => rfl⟩

/-- C3: with otherwise valid settings, `run` raises `OutputTargetConflict`
whenever the resolved output directory already exists; the Agent Store is
untouched and the simulation loop performs no iteration, whatever the engine
would have computed. -/
theorem run_output_target_conflict (env : RunEnv) (store : AgentStore)
    (sim : AgentStore → AgentStore × ℕ)
    (hvalid : env.settingsValid = true) (hdir : env.dirExists = true) :
    (runModel env store sim).err = some SimError.OutputTargetConflict ∧
    (runModel env store sim).finalStore = store ∧
    (runModel env store sim).iterationsRun = 0 := by
  simp [runModel, hvalid, hdir]

/-- Witness for C3 at a concrete environment, store and engine. -/
theorem run_output_target_conflict_witness :
    (runModel ⟨true, true⟩ [1, 2] (fun s => (s, 5))).err =
        some SimError.OutputTargetConflict ∧
    (runModel ⟨true, true⟩ [1, 2] (fun s => (s, 5))).finalStore = [1, 2] ∧
    (runModel ⟨true, true⟩ [1, 2] (fun s => (s, 5))).iterationsRun = 0 :=
  run_output_target_conflict ⟨true, true⟩ [1, 2] (fun s => (s, 5)) rfl rfl

/-- C4: settings validation happens before any iteration: when
`validate_settings` fails, `run` aborts with a configuration error, the Agent
Store is exactly the initial one (no interaction step was applied) and zero
iterations were performed, whatever the engine would have computed. -/
theorem run_eager_validation (env : RunEnv) (store : AgentStore)
    (sim : AgentStore → AgentStore × ℕ) (hbad : env.settingsValid = false) :
    (runModel env store sim).err = some SimError.ConfigError ∧
    (runModel env store sim).finalStore = store ∧
    (runModel env store sim).iterationsRun = 0 := by
  simp [runModel, hbad]

/-- Witness for C4 at a concrete environment, store and engine. -/
theorem run_eager_validation_witness :
    (runModel ⟨false, false⟩ [1, 2] (fun s => (s, 5))).err = some SimError.ConfigError ∧
    (runModel ⟨false, false⟩ [1, 2] (fun s => (s, 5))).finalStore = [1, 2] ∧
    (runModel ⟨false, false⟩ [1, 2] (fun s => (s, 5))).iterationsRun = 0 :=
  run_eager_validation ⟨false, false⟩ [1, 2] (fun s => (s, 5)) rfl

/-- C5: when the opinion distance reaches the homophily threshold
(`|a - b| >= t`), the Deffuant Update Rule returns the pair unchanged, for
every convergence rate. -/
theorem deffuant_no_update_above_threshold (a b t mu : ℚ) (h : |a - b| ≥ t) :
    deffuantUpdate a b t mu = (a, b) := by
  simp [deffuantUpdate, h]

/-- Witness for C5 at a concrete pair. -/
theorem deffuant_no_update_above_threshold_witness :
    deffuantUpdate 0 1 0 (1/2) = (0, 1) :=
  deffuant_no_update_above_threshold 0 1 0 (1/2) (abs_nonneg _)

/-- C6: when `|a - b| < t` and `mu = 1/2`, both outputs of the Deffuant
Update Rule equal the midpoint `(a + b) / 2` (exactly, in the rational model
of float arithmetic), and hence the sum of the pair's opinions is conserved. -/
theorem deffuant_midpoint_at_half (a b t : ℚ) (h : |a - b| < t) :
    deffuantUpdate a b t (1/2) = ((a + b) / 2, (a + b) / 2) ∧
    (deffuantUpdate a b t (1/2)).1 + (deffuantUpdate a b t (1/2)).2 = a + b := by
  have hn : ¬(|a - b| ≥ t) := not_le.mpr h
  constructor
  · simp only [deffuantUpdate, hn, if_false]
    rw [Prod.mk.injEq]
    exact ⟨by ring, by ring⟩
  · simp only [deffuantUpdate, hn, if_false]
    ring

/-- Witness for C6 at a concrete pair. -/
theorem deffuant_midpoint_at_half_witness :
    deffuantUpdate 0 0 1 (1/2) = ((0 + 0) / 2, (0 + 0) / 2) ∧
    (deffuantUpdate 0 0 1 (1/2)).1 + (deffuantUpdate 0 0 1 (1/2)).2 = 0 + 0 :=
  deffuant_midpoint_at_half 0 0 1 (by simp)

/-- C7: the Deffuant Update Rule is order-independent: swapping the arguments
swaps the result pair, because both new values are computed from the original
pre-update pair. -/
theorem deffuant_order_independent (a b t mu : ℚ) :
    deffuantUpdate a b t mu = ((deffuantUpdate b a t mu).2, (deffuantUpdate b a t mu).1) := by
  unfold deffuantUpdate
  rw [abs_sub_comm b a]
  by_cases h : |a - b| ≥ t
  · simp [h]
  · simp [h]

/-- C8: the simulation is deterministic given its seed: two runs with
identical `rng_seed`, identical iteration bound and model settings, and
identical initial Agent Store produce identical final opinions and an
identical sequence of interacting pairs. -/
theorem simulation_deterministic (s1 s2 m1 m2 : ℕ) (t1 t2 mu1 mu2 : ℚ)
    (o1 o2 : AgentStore) (hs : s1 = s2) (hm : m1 = m2) (ht : t1 = t2)
    (hmu : mu1 = mu2) (ho : o1 = o2) :
    (runSimulation s1 m1 t1 mu1 o1).store = (runSimulation s2 m2 t2 mu2 o2).store ∧
    (runSimulation s1 m1 t1 mu1 o1).trace = (runSimulation s2 m2 t2 mu2 o2).trace := by
  subst hs hm ht hmu ho
  exact ⟨rfl, rfl⟩

/-- Witness for C8: two concrete runs with the same seed, settings and
initial store agree. -/
theorem simulation_deterministic_witness :
    (runSimulation 7 5 (1/5) (1/2) [0, 1, 2, 3]).store =
        (runSimulation 7 5 (1/5) (1/2) [0, 1, 2, 3]).store ∧
    (runSimulation 7 5 (1/5) (1/2) [0, 1, 2, 3]).trace =
        (runSimulation 7 5 (1/5) (1/2) [0, 1, 2, 3]).trace :=
  simulation_deterministic 7 7 5 5 (1/5) (1/5) (1/2) (1/2) [0, 1, 2, 3] [0, 1, 2, 3]
    rfl rfl rfl rfl rfl

/-- C9: with `max_iterations` set, the bounded loop starts its
IterationCounter at 0, increments it once per completed interaction step,
performs exactly `max_iterations` update attempts (each recorded in the pair
trace whether or not it changed state), and then stops. -/
theorem simulation_exact_iteration_count (seed maxIter : ℕ) (t mu : ℚ)
    (opinions : AgentStore) :
    (initState seed opinions).iter = 0 ∧
    (∀ st : SimState, (simStep t mu st).iter = st.iter + 1) ∧
    (runSimulation seed maxIter t mu opinions).iter = maxIter ∧
    (runSimulation seed maxIter t mu opinions).trace.length = maxIter := by
  obtain ⟨h1, h2⟩ := simRun_iter_trace t mu maxIter (initState seed opinions)
  exact ⟨rfl, fun _ => rfl, by simpa [initState] using h1, by simpa [initState] using h2⟩

end PySeldon
